import Mathlib

/-!
Shallow embedding of the Skadi thermal/energy optimizer core
(src/mms/filter.py, src/ims/train.py, src/ims/score.py,
src/optimizer/policies.py, src/optimizer/slow_loop.py,
src/optimizer/fast_loop.py).

Python floats are modelled as rationals; Python dictionaries holding the
system state are modelled as structures whose fields are the keys the code
reads; fallible code returns Option/Except.
-/

namespace Skadi

/-- Configuration values from core/config.py (class Settings) that the
embedded code reads.  Field values default as in the source. -/
structure Settings where
globalKillSwitch : Bool
writeRateLimitS : ℚ
slaLatencyMs : ℚ
inletMaxC : ℚ
rackKwCap : ℚ
imsTauFastPercentile : ℚ
imsTauPersistPercentile : ℚ
mmsEmaAlpha : ℚ
mmsPersistTicks : ℕ
deriving DecidableEq, Repr

/-- The default Settings() instance from core/config.py. -/
def defaultSettings : Settings :=
{ globalKillSwitch := false
  writeRateLimitS := 120
  slaLatencyMs := 250
  inletMaxC := 28
  rackKwCap := 12
  imsTauFastPercentile := 95
  imsTauPersistPercentile := 98
  mmsEmaAlpha := 3/10
  mmsPersistTicks := 6 }

/-! ## MMS filter (src/mms/filter.py) -/

/-- The Literal type MMSState = "transient" | "persistent". -/
inductive MMSState where
| transient
| persistent
deriving DecidableEq, Repr

/-- The dictionary returned by MMSFilter.update.  The early return taken
when thresholds are unset omits the consecutive counters, hence those
fields are optional. -/
structure MMSUpdateResult where
ema : ℚ
state : MMSState
rawDeviation : ℚ
consecutiveHigh : Option ℕ
consecutiveLow : Option ℕ
deriving DecidableEq, Repr

/-- Mutable state of class MMSFilter. -/
structure MMSFilter where
alpha : ℚ
persistTicks : ℕ
tauFast : Option ℚ
tauPersist : Option ℚ
ema : ℚ
state : MMSState
consecutiveHigh : ℕ
consecutiveLow : ℕ
history : List MMSUpdateResult
deriving DecidableEq, Repr

/-- MMSFilter.__init__ with explicit alpha, persist_ticks and optional
thresholds: ema 0.0, state transient, counters 0, empty history. -/
def MMSFilter.init (alpha : ℚ) (persistTicks : ℕ)
    (tauFast tauPersist : Option ℚ) : MMSFilter :=
{ alpha := alpha
  persistTicks := persistTicks
  tauFast := tauFast
  tauPersist := tauPersist
  ema := 0
  state := MMSState.transient
  consecutiveHigh := 0
  consecutiveLow := 0
  history := [] }

/-- Append to a deque(maxlen := 100): keep the most recent 100 entries. -/
def pushHistory (h : List MMSUpdateResult) (r : MMSUpdateResult) :
    List MMSUpdateResult :=
let l := h ++ [r]
l.drop (l.length - 100)

/-- MMSFilter.update: EMA with the ema == 0.0 first-call sentinel,
consecutive above/below counters, and the hysteresis state transition.
Returns the new filter state together with the result dictionary. -/
def MMSFilter.update (f : MMSFilter) (deviation : ℚ) :
    MMSFilter × MMSUpdateResult :=
match f.tauFast, f.tauPersist with
| some tf, some tp =>
  let ema1 := if f.ema = 0 then deviation
              else f.alpha * deviation + (1 - f.alpha) * f.ema
  let high1 := if ema1 > tp then f.consecutiveHigh + 1 else 0
  let low1 := if ema1 > tp then 0
              else if ema1 < tf then f.consecutiveLow + 1 else 0
  let state1 :=
    match f.state with
    | MMSState.transient =>
        if f.persistTicks ≤ high1 then MMSState.persistent
        else MMSState.transient
    | MMSState.persistent =>
        if f.persistTicks ≤ low1 then MMSState.transient
        else MMSState.persistent
  let result : MMSUpdateResult :=
    { ema := ema1
      state := state1
      rawDeviation := deviation
      consecutiveHigh := some high1
      consecutiveLow := some low1 }
  ({ f with
      ema := ema1
      state := state1
      consecutiveHigh := high1
      consecutiveLow := low1
      history := pushHistory f.history result }, result)
| _, _ =>
  (f, { ema := deviation
        state := MMSState.transient
        rawDeviation := deviation
        consecutiveHigh := none
        consecutiveLow := none })

/-- MMSFilter.reset: clear EMA, state, counters and history. -/
def MMSFilter.reset (f : MMSFilter) : MMSFilter :=
{ f with
    ema := 0
    state := MMSState.transient
    consecutiveHigh := 0
    consecutiveLow := 0
    history := [] }

/-- Feed a sequence of deviations through the filter, keeping the final
filter state. -/
def MMSFilter.updates (f : MMSFilter) (l : List ℚ) : MMSFilter :=
l.foldl (fun g d => (g.update d).1) f

/-- The concrete filter used in the specification examples:
alpha 0.3, persist_ticks 6, tau_fast 1.0, tau_persist 2.0. -/
def mmsDemo : MMSFilter :=
MMSFilter.init (3/10) 6 (some 1) (some 2)

/-- A filter whose thresholds were never provided. -/
def mmsUntrained : MMSFilter :=
MMSFilter.init (3/10) 6 none none

/-- Invariant used for the calm tail of the demo sequence: demo
parameters, transient state, EMA at most tau_persist. -/
def mmsCalm (g : MMSFilter) : Prop :=
g.state = MMSState.transient ∧ g.ema ≤ 2 ∧ g.alpha = 3/10 ∧
g.tauFast = some 1 ∧ g.tauPersist = some 2 ∧ g.persistTicks = 6

/-! ## IMS training thresholds (src/ims/train.py) -/

/-- Squared Euclidean distance between two feature vectors.  The source
computes Euclidean distances via kmeans.transform; since the square root
is strictly monotone, minima, ordering and equality of deviation scores
are faithfully represented by the squared distances. -/
def distSq (x c : List ℚ) : ℚ :=
((x.zip c).map (fun p => (p.1 - p.2) ^ 2)).sum

/-- IMSTrainer._compute_deviations: minimum distance from a row to any
cluster center (np.min over kmeans.transform, here in squared form). -/
def minDistSq (centers : List (List ℚ)) (x : List ℚ) : ℚ :=
match centers.map (fun c => distSq x c) with
| [] => 0
| d :: ds => ds.foldl min d

/-- Deviation scores of a matrix of (already scaled) feature rows. -/
def computeDeviations (centers : List (List ℚ)) (rows : List (List ℚ)) :
    List ℚ :=
rows.map (fun x => minDistSq centers x)

/-- Element j of a sorted sample array, index clamped to the last
element (numpy clips the upper interpolation index). -/
def elAt (s : List ℚ) (j : ℕ) : ℚ :=
s.getD (min j (s.length - 1)) 0

/-- Linear interpolation at fractional index h into the sorted array s:
s[floor h] + (h - floor h) * (s[floor h + 1] - s[floor h]). -/
def interpAt (s : List ℚ) (h : ℚ) : ℚ :=
let i : ℕ := (⌊h⌋).toNat
elAt s i + (h - (i : ℚ)) * (elAt s (i + 1) - elAt s i)

/-- np.percentile with the default linear interpolation: sort ascending
and interpolate at h = (len - 1) * q / 100. -/
def percentile (l : List ℚ) (q : ℚ) : ℚ :=
let s := List.insertionSort (fun a b => a ≤ b) l
interpAt s (((s.length : ℚ) - 1) * q / 100)

/-- Thresholds produced by IMSTrainer.train once the deviation scores of
the nominal training rows are known (lines 129-149 of src/ims/train.py):
reject fewer than 100 nominal samples with IMSNotTrainedException, then
set tau_fast and tau_persist to the configured percentiles of the
deviations.  The k-means fit that produces the deviation scores is taken
as input (see computeDeviations). -/
structure TrainResult where
tauFast : ℚ
tauPersist : ℚ
deriving DecidableEq, Repr

def trainThresholds (s : Settings) (deviations : List ℚ) :
    Except String TrainResult :=
if deviations.length < 100 then
  Except.error "IMSNotTrainedException: insufficient nominal samples"
else
  Except.ok
    { tauFast := percentile deviations s.imsTauFastPercentile
      tauPersist := percentile deviations s.imsTauPersistPercentile }

/-! ## IMS scoring (src/ims/score.py, src/ims/train.py prepare_features) -/

/-- A telemetry sample (Dict[str, float]): one optional rational per key
the scoring path can read; none models an absent key. -/
structure Sample where
inletC : Option ℚ
outletC : Option ℚ
deltaT : Option ℚ
pduKw : Option ℚ
gpuPowerKw : Option ℚ
gpuEnergyJ : Option ℚ
tokensPs : Option ℚ
latencyP95Ms : Option ℚ
queueDepth : Option ℚ
fanRpmPct : Option ℚ
pumpRpmPct : Option ℚ
deriving DecidableEq, Repr

/-- A pandas DataFrame built from a list of sample dictionaries has a
column iff at least one sample carries the key. -/
def colPresent (samples : List Sample) (sel : Sample → Option ℚ) : Bool :=
samples.any (fun s => (sel s).isSome)

/-- Cell subtraction with NaN propagation (df[a] - df[b]). -/
def sub2 (a b : Option ℚ) : Option ℚ :=
match a, b with
| some x, some y => some (x - y)
| _, _ => none

/-- df[gpu_energy_j].diff().fillna(0) / 1000.0, walking the rows with the
previous energy cell: the first row and any row where the difference
involves a missing cell become 0. -/
def diffPower : Option ℚ → List Sample → List Sample
| _, [] => []
| prev, s :: rest =>
  let p : ℚ :=
    match s.gpuEnergyJ, prev with
    | some e, some ep => (e - ep) / 1000
    | _, _ => 0
  { s with gpuPowerKw := some p } :: diffPower s.gpuEnergyJ rest

/-- The feature row df[FEATURE_COLUMNS].values for one sample after
np.nan_to_num: missing cells become 0. -/
def sampleRow (s : Sample) : List ℚ :=
[s.inletC.getD 0, s.outletC.getD 0, s.deltaT.getD 0, s.pduKw.getD 0,
 s.gpuPowerKw.getD 0, s.tokensPs.getD 0, s.latencyP95Ms.getD 0,
 s.queueDepth.getD 0, s.fanRpmPct.getD 0, s.pumpRpmPct.getD 0]

/-- All ten feature columns (and the operands of the delta_t and
gpu_power_kw derivations) are available in the frame built from the
samples; when this fails, df[FEATURE_COLUMNS] raises KeyError. -/
def featuresGate (samples : List Sample) : Bool :=
(colPresent samples Sample.deltaT ||
  (colPresent samples Sample.outletC && colPresent samples Sample.inletC))
&& (colPresent samples Sample.gpuPowerKw ||
    colPresent samples Sample.gpuEnergyJ)
&& colPresent samples Sample.inletC && colPresent samples Sample.outletC
&& colPresent samples Sample.pduKw && colPresent samples Sample.tokensPs
&& colPresent samples Sample.latencyP95Ms
&& colPresent samples Sample.queueDepth
&& colPresent samples Sample.fanRpmPct
&& colPresent samples Sample.pumpRpmPct

/-- IMSTrainer.prepare_features: derive delta_t when the column is
absent, derive gpu_power_kw from the cumulative energy diff when absent,
then select the ten feature columns (none when a required column is
missing from the frame, which raises KeyError in the source). -/
def prepareFeatures (samples : List Sample) : Option (List (List ℚ)) :=
let dtPresent := colPresent samples Sample.deltaT
let rows1 :=
  if dtPresent then samples
  else samples.map (fun s => { s with deltaT := sub2 s.outletC s.inletC })
let gpPresent := colPresent samples Sample.gpuPowerKw
let gePresent := colPresent samples Sample.gpuEnergyJ
let rows2 :=
  if gpPresent then rows1
  else if gePresent then diffPower none rows1
  else rows1
if featuresGate samples then some (rows2.map sampleRow) else none

/-- Two samples expose the same set of telemetry keys. -/
def samePresence (a b : Sample) : Prop :=
a.inletC.isSome = b.inletC.isSome ∧
a.outletC.isSome = b.outletC.isSome ∧
a.deltaT.isSome = b.deltaT.isSome ∧
a.pduKw.isSome = b.pduKw.isSome ∧
a.gpuPowerKw.isSome = b.gpuPowerKw.isSome ∧
a.gpuEnergyJ.isSome = b.gpuEnergyJ.isSome ∧
a.tokensPs.isSome = b.tokensPs.isSome ∧
a.latencyP95Ms.isSome = b.latencyP95Ms.isSome ∧
a.queueDepth.isSome = b.queueDepth.isSome ∧
a.fanRpmPct.isSome = b.fanRpmPct.isSome ∧
a.pumpRpmPct.isSome = b.pumpRpmPct.isSome

/-- Trained model state an IMSScorer reads: thresholds, the fitted
StandardScaler (per-column mean and scale) and the k-means centers. -/
structure IMSModel where
tauFast : ℚ
tauPersist : ℚ
mean : List ℚ
scale : List ℚ
centers : List (List ℚ)
deriving DecidableEq, Repr

/-- StandardScaler.transform on one row: componentwise (x - mean) / scale. -/
def scaleRow (m : IMSModel) (x : List ℚ) : List ℚ :=
List.zipWith (fun a s => a / s) (List.zipWith (fun a mu => a - mu) x m.mean)
  m.scale

/-- Deviation of a prepared feature row: minimum (squared) distance from
the scaled row to any center. -/
def devOfRow (m : IMSModel) (x : List ℚ) : ℚ :=
minDistSq m.centers (scaleRow m x)

/-- IMSScorer.score_sample: build a one-row frame, prepare features,
scale, and take the row-0 deviation. -/
def scoreSample (m : IMSModel) (s : Sample) : Option ℚ :=
(prepareFeatures [s]).bind (fun rows => (rows.map (devOfRow m)).head?)

/-- IMSScorer.score_batch: empty input gives an empty score array,
otherwise one deviation per prepared row. -/
def scoreBatch (m : IMSModel) (samples : List Sample) : Option (List ℚ) :=
if samples.isEmpty then some []
else (prepareFeatures samples).map (fun rows => rows.map (devOfRow m))

/-- The three classification labels of IMSScorer.classify_deviation. -/
inductive DeviationClass where
| nominal
| warning
| critical
deriving DecidableEq, Repr

/-- IMSScorer.classify_deviation. -/
def classifyDeviation (m : IMSModel) (d : ℚ) : DeviationClass :=
if d < m.tauFast then DeviationClass.nominal
else if d < m.tauPersist then DeviationClass.warning
else DeviationClass.critical

/-! ## Action policy (src/optimizer/policies.py) -/

/-- Values appearing in an action parameter dictionary: numbers, or the
list of target rack ids used by shift_traffic_to_cool_row. -/
inductive ParamValue where
| num (q : ℚ)
| strList (l : List String)
deriving DecidableEq, Repr

/-- The ActionCandidate dataclass.  The free-text reason is kept but the
source format strings interpolating numbers are abbreviated to their
fixed prefix. -/
structure ActionCandidate where
action : String
params : List (String × ParamValue)
target : String
predSavingPct : ℚ
predLatencyImpactMs : ℚ
predInletChangeC : ℚ
riskScore : ℚ
reason : String
deriving DecidableEq, Repr

/-- The current_state dictionary fields read by the optimizer loops and
candidate generation. -/
structure SystemState where
avgInletC : ℚ
maxInletC : ℚ
avgLatencyMs : ℚ
imsDeviation : ℚ
mmsState : MMSState
jPerPromptWh : ℚ
tauFast : ℚ
tauPersist : ℚ
recentRollback : Bool
rackTemperatures : List (String × ℚ)
deriving DecidableEq, Repr

/-- ActionPolicy.generate_candidates, block by block in source order. -/
def generateCandidates (s : Settings) (st : SystemState) :
    List ActionCandidate :=
let inletMargin := s.inletMaxC - st.maxInletC
let block1 : List ActionCandidate :=
  if st.avgLatencyMs < s.slaLatencyMs * (85/100) then
    ([20, 30, 40] : List ℚ).filterMap (fun delta =>
      let latencyImpact := delta * (4/10)
      if st.avgLatencyMs + latencyImpact < s.slaLatencyMs then
        some { action := "increase_batch_window"
               params := [("delta_ms", ParamValue.num delta)]
               target := "system"
               predSavingPct := delta * (2/10)
               predLatencyImpactMs := latencyImpact
               predInletChangeC := 1/10
               riskScore := 2/10
               reason := "Increase batch window" }
      else none)
  else []
let block2 : List ActionCandidate :=
  if inletMargin > 2 then
    ([-3, -4, -5] : List ℚ).filterMap (fun deltaPct =>
      let tempIncrease := |deltaPct| * (15/100)
      if st.maxInletC + tempIncrease < s.inletMaxC then
        some { action := "decrease_fan_rpm"
               params := [("delta_pct", ParamValue.num deltaPct)]
               target := "system"
               predSavingPct := |deltaPct| * (12/10)
               predLatencyImpactMs := 0
               predInletChangeC := tempIncrease
               riskScore := 3/10
               reason := "Reduce fan RPM" }
      else none)
  else []
let block3 : List ActionCandidate :=
  if inletMargin > 3 then
    ([1/2, 1] : List ℚ).filterMap (fun deltaC =>
      if st.avgInletC + deltaC < s.inletMaxC - 1 then
        some { action := "increase_supply_temp"
               params := [("delta_c", ParamValue.num deltaC)]
               target := "system"
               predSavingPct := deltaC * 4
               predLatencyImpactMs := 0
               predInletChangeC := deltaC
               riskScore := 4/10
               reason := "Raise supply temp" }
      else none)
  else []
let block4 : List ActionCandidate :=
  if st.imsDeviation > 1/2 ∨ st.mmsState = MMSState.persistent then
    if st.rackTemperatures.isEmpty then []
    else
      let coolRacks :=
        (st.rackTemperatures.filter
          (fun rt => rt.2 < st.avgInletC - 1)).map Prod.fst
      if coolRacks.isEmpty then []
      else
        ([10, 15, 20, 25] : List ℚ).map (fun trafficPct =>
          { action := "shift_traffic_to_cool_row"
            params := [("traffic_pct", ParamValue.num trafficPct),
                       ("target_racks", ParamValue.strList (coolRacks.take 3))]
            target := "routing"
            predSavingPct := trafficPct * (15/100)
            predLatencyImpactMs := 5
            predInletChangeC := -(3/10)
            riskScore := 1/4
            reason := "Shift traffic to cooler racks" })
  else []
let block5 : List ActionCandidate :=
  if st.mmsState = MMSState.persistent then
    ([3, 4] : List ℚ).map (fun priorityThresh =>
      { action := "pause_low_priority_jobs"
        params := [("priority_threshold", ParamValue.num priorityThresh),
                   ("max_pause_pct", ParamValue.num 10)]
        target := "scheduler"
        predSavingPct := 8
        predLatencyImpactMs := -20
        predInletChangeC := -(3/2)
        riskScore := 7/10
        reason := "Pause low priority jobs" })
  else []
let block6 : List ActionCandidate :=
  if st.maxInletC > s.inletMaxC - 1 then
    ([3, 5] : List ℚ).map (fun deltaPct =>
      { action := "increase_cdu_pump"
        params := [("delta_pct", ParamValue.num deltaPct)]
        target := "cooling"
        predSavingPct := -deltaPct * (1/2)
        predLatencyImpactMs := 0
        predInletChangeC := -(4/10)
        riskScore := 35/100
        reason := "Increase pump" })
  else []
block1 ++ block2 ++ block3 ++ block4 ++ block5 ++ block6

/-- The weights dictionary of ActionPolicy.rank_candidates. -/
structure RankWeights where
savingPct : ℚ
riskScore : ℚ
latencyImpact : ℚ
deriving DecidableEq, Repr

/-- Default weights: favor savings, penalize risk, penalize latency. -/
def defaultRankWeights : RankWeights :=
{ savingPct := 1, riskScore := -(4/5), latencyImpact := -(3/10) }

/-- The composite score assigned to each candidate by rank_candidates. -/
def candidateScore (w : RankWeights) (c : ActionCandidate) : ℚ :=
w.savingPct * c.predSavingPct + w.riskScore * c.riskScore +
  w.latencyImpact * |c.predLatencyImpactMs| / 100

/-- ActionPolicy.rank_candidates: a stable sort by descending composite
score (Python sorted with reverse=True is stable, as is mergeSort). -/
def rankCandidates (w : RankWeights) (candidates : List ActionCandidate) :
    List ActionCandidate :=
if candidates.isEmpty then []
else candidates.mergeSort
  (fun a b => decide (candidateScore w b ≤ candidateScore w a))

/-! ## Optimizer loops (src/optimizer/slow_loop.py, fast_loop.py) -/

/-- One candidate passes SlowOptimizerLoop._apply_guardrails iff none of
the four rejection conditions fires. -/
def guardrailsPass (s : Settings) (st : SystemState)
    (c : ActionCandidate) : Bool :=
!(decide (st.maxInletC + c.predInletChangeC > s.inletMaxC)) &&
!(decide (st.avgLatencyMs + c.predLatencyImpactMs > s.slaLatencyMs)) &&
!(decide (c.predInletChangeC > 1) &&
  decide (st.imsDeviation > st.tauPersist * (7/10))) &&
!(decide (c.riskScore > 6/10) && st.recentRollback)

/-- SlowOptimizerLoop._apply_guardrails: keep, in order, exactly the
candidates passing the four guardrails. -/
def applyGuardrails (s : Settings) (st : SystemState)
    (candidates : List ActionCandidate) : List ActionCandidate :=
candidates.filter (fun c => guardrailsPass s st c)

/-- The proposal dictionary returned by the loops.  The fast loop omits
the pred_latency_impact_ms key, hence that field is optional.  Timestamps
are modelled as rationals (seconds). -/
structure Proposal where
action : String
params : List (String × ParamValue)
target : String
predSavingPct : ℚ
predLatencyImpactMs : Option ℚ
reason : String
loop : String
ts : ℚ
deriving Repr

/-- The rate-limit key f-string action:target. -/
def keyOf (action target : String) : String :=
action ++ ":" ++ target

/-- The dictionary write self.last_action_ts[key] = now. -/
def updateMap (m : String → Option ℚ) (key : String) (now : ℚ) :
    String → Option ℚ :=
fun k => if k = key then some now else m k

/-- The proposal dictionary built by the slow loop from the best
candidate. -/
def mkSlowProposal (best : ActionCandidate) (now : ℚ) : Proposal :=
{ action := best.action
  params := best.params
  target := best.target
  predSavingPct := best.predSavingPct
  predLatencyImpactMs := some best.predLatencyImpactMs
  reason := best.reason
  loop := "slow"
  ts := now }

/-- The proposal dictionary built by the fast loop from the best
candidate. -/
def mkFastProposal (best : ActionCandidate) (now : ℚ) : Proposal :=
{ action := best.action
  params := best.params
  target := best.target
  predSavingPct := best.predSavingPct
  predLatencyImpactMs := none
  reason := best.reason
  loop := "fast"
  ts := now }

/-- SlowOptimizerLoop.optimize at wall-clock time now.  The member
last_action_ts is passed in and the possibly updated map is returned
alongside the optional proposal. -/
def slowOptimize (s : Settings) (now : ℚ) (st : SystemState)
    (lastActionTs : String → Option ℚ) :
    Option Proposal × (String → Option ℚ) :=
if s.globalKillSwitch then (none, lastActionTs)
else if st.mmsState = MMSState.persistent then (none, lastActionTs)
else if st.avgLatencyMs > s.slaLatencyMs * (95/100) then (none, lastActionTs)
else
  let candidates := generateCandidates s st
  if candidates.isEmpty then (none, lastActionTs)
  else
    let safeCandidates := applyGuardrails s st candidates
    if safeCandidates.isEmpty then (none, lastActionTs)
    else
      match rankCandidates defaultRankWeights safeCandidates with
      | [] => (none, lastActionTs)
      | best :: _ =>
        let targetKey := keyOf best.action best.target
        match lastActionTs targetKey with
        | some t =>
          if now - t < s.writeRateLimitS then (none, lastActionTs)
          else (some (mkSlowProposal best now),
                updateMap lastActionTs targetKey now)
        | none => (some (mkSlowProposal best now),
                   updateMap lastActionTs targetKey now)

/-- The trigger condition of FastGuardrailLoop.evaluate. -/
def fastNeedsAction (s : Settings) (st : SystemState) : Bool :=
decide (st.imsDeviation > st.tauFast) ||
decide (st.mmsState = MMSState.persistent) ||
decide (st.maxInletC > s.inletMaxC - 1/2)

/-- The candidate pool the fast loop ranks: low-risk candidates, falling
back to all candidates when none is low-risk. -/
def fastSafeSelection (s : Settings) (st : SystemState) :
    List ActionCandidate :=
let candidates := generateCandidates s st
let safe0 := candidates.filter (fun c => decide (c.riskScore < 1/2))
if safe0.isEmpty then candidates else safe0

/-- FastGuardrailLoop.evaluate at wall-clock time now, with its own
last_action_ts map threaded through. -/
def fastEvaluate (s : Settings) (now : ℚ) (st : SystemState)
    (lastActionTs : String → Option ℚ) :
    Option Proposal × (String → Option ℚ) :=
if s.globalKillSwitch then (none, lastActionTs)
else if !(fastNeedsAction s st) then (none, lastActionTs)
else
  let candidates := generateCandidates s st
  if candidates.isEmpty then (none, lastActionTs)
  else
    match rankCandidates defaultRankWeights (fastSafeSelection s st) with
    | [] => (none, lastActionTs)
    | best :: _ =>
      let targetKey := keyOf best.action best.target
      match lastActionTs targetKey with
      | some t =>
        if now - t < 60 then (none, lastActionTs)
        else (some (mkFastProposal best now),
              updateMap lastActionTs targetKey now)
      | none => (some (mkFastProposal best now),
                 updateMap lastActionTs targetKey now)

/-- Rate-limit key carried by a proposal. -/
def proposalKey (p : Proposal) : String :=
keyOf p.action p.target

/-- Rate-limit key of the best-ranked safe candidate of a slow-loop
evaluation on a given state, when one exists. -/
def slowBestKey (s : Settings) (st : SystemState) : Option String :=
(rankCandidates defaultRankWeights
  (applyGuardrails s st (generateCandidates s st))).head?.map
  (fun c => keyOf c.action c.target)

/-- Rate-limit key of the best-ranked candidate of a fast-loop
evaluation on a given state, when one exists. -/
def fastBestKey (s : Settings) (st : SystemState) : Option String :=
(rankCandidates defaultRankWeights (fastSafeSelection s st)).head?.map
  (fun c => keyOf c.action c.target)

/-! ## Concrete instances used by witnesses and counterexamples -/

/-- A quiet system state: latency well under SLA, two degrees of inlet
margin, no deviation. -/
def demoState : SystemState :=
{ avgInletC := 22
  maxInletC := 26
  avgLatencyMs := 180
  imsDeviation := 0
  mmsState := MMSState.transient
  jPerPromptWh := 1/2
  tauFast := 1
  tauPersist := 2
  recentRollback := false
  rackTemperatures := [] }

/-- The same state with an IMS deviation above tau_fast, so the fast
loop triggers. -/
def fastDemoState : SystemState :=
{ demoState with imsDeviation := 3/2 }

/-- A batch-window candidate as generated on demoState. -/
def demoCandidate : ActionCandidate :=
{ action := "increase_batch_window"
  params := [("delta_ms", ParamValue.num 20)]
  target := "system"
  predSavingPct := 4
  predLatencyImpactMs := 8
  predInletChangeC := 1/10
  riskScore := 2/10
  reason := "Increase batch window" }

/-- A second candidate with identical numeric fields, hence an identical
composite score. -/
def demoCandidateB : ActionCandidate :=
{ demoCandidate with action := "decrease_fan_rpm" }

/-- Training rows whose deviation scores against c4Centers are the
squares 0, 1, 4, ..., 10000 (101 samples, enough for train). -/
def c4Rows : List (List ℚ) :=
(List.range 101).map (fun n => [(n : ℚ)])

/-- A single cluster center at the origin. -/
def c4Centers : List (List ℚ) := [[0]]

/-- Settings with the two percentile choices swapped. -/
def swappedSettings : Settings :=
{ defaultSettings with
    imsTauFastPercentile := 98
    imsTauPersistPercentile := 95 }

/-- A sample carrying every feature key except gpu_power_kw, plus a
cumulative gpu_energy_j reading of 0. -/
def c9SampleA : Sample :=
{ inletC := some 0
  outletC := some 0
  deltaT := some 0
  pduKw := some 0
  gpuPowerKw := none
  gpuEnergyJ := some 0
  tokensPs := some 0
  latencyP95Ms := some 0
  queueDepth := some 0
  fanRpmPct := some 0
  pumpRpmPct := some 0 }

/-- The same sample one tick later with gpu_energy_j advanced to 1000. -/
def c9SampleB : Sample :=
{ c9SampleA with gpuEnergyJ := some 1000 }

/-- A trained model with identity scaling and one center at the origin
(tau_fast 1 below tau_persist 2). -/
def c9Model : IMSModel :=
{ tauFast := 1
  tauPersist := 2
  mean := List.replicate 10 0
  scale := List.replicate 10 1
  centers := [List.replicate 10 0] }

/-- A sample with every key present, including gpu_power_kw. -/
def c9FullA : Sample :=
{ c9SampleA with gpuPowerKw := some 2 }

/-- A second fully keyed sample. -/
def c9FullB : Sample :=
{ c9SampleB with gpuPowerKw := some 3 }

/-! ## Theorems -/

unseal Rat.mul Rat.inv Rat.add Rat.sub List.merge List.mergeSort

/-- Unfolding equation for MMSFilter.update when both thresholds are set. -/
theorem update_eq_of_thresholds (f : MMSFilter) (d tf tp : ℚ)
    (hf : f.tauFast = some tf) (hp : f.tauPersist = some tp) :
    f.update d =
      (let ema1 := if f.ema = 0 then d
                   else f.alpha * d + (1 - f.alpha) * f.ema
       let high1 := if ema1 > tp then f.consecutiveHigh + 1 else 0
       let low1 := if ema1 > tp then 0
                   else if ema1 < tf then f.consecutiveLow + 1 else 0
       let state1 :=
         match f.state with
         | MMSState.transient =>
             if f.persistTicks ≤ high1 then MMSState.persistent
             else MMSState.transient
         | MMSState.persistent =>
             if f.persistTicks ≤ low1 then MMSState.transient
             else MMSState.persistent
       let result : MMSUpdateResult :=
         ⟨ema1, state1, d, some high1, some low1⟩
       ({ f with
           ema := ema1
           state := state1
           consecutiveHigh := high1
           consecutiveLow := low1
           history := pushHistory f.history result }, result)) := by
  unfold MMSFilter.update
  rw [hf, hp]

/-- Folding a list through the filter distributes over a final element. -/
theorem updates_concat (f : MMSFilter) (l : List ℚ) (d : ℚ) :
    f.updates (l ++ [d]) = ((f.updates l).update d).1 := by
  simp [MMSFilter.updates, List.foldl_append]

/-- One calm tick of 0.1 keeps the demo filter calm. -/
theorem mmsCalm_step (g : MMSFilter) (h : mmsCalm g) :
    mmsCalm (g.update (1/10)).1 := by
  obtain ⟨h1, h2, h3, h4, h5, h6⟩ := h
  rw [update_eq_of_thresholds g (1/10) 1 2 h4 h5]
  by_cases he : g.ema = 0
  · unfold mmsCalm
    simp [he, h1, h3, h4, h5, h6]
    norm_num
  · unfold mmsCalm
    simp [he, h1, h3, h4, h5, h6]
    constructor
    · split_ifs with hc
      · exfalso; linarith
      · norm_num
    · linarith

/-- Calmness of the demo filter after the burst of 5.0 has decayed for
three ticks of 0.1. -/
theorem mms_demo_calm (m : ℕ) :
    mmsCalm (mmsDemo.updates (5 :: List.replicate (m + 3) (1/10))) := by
  induction m with
  | zero =>
    unfold mmsCalm
    decide
  | succ k ih =>
    have h : (5 : ℚ) :: List.replicate (k + 1 + 3) ((1 : ℚ)/10) =
        (5 :: List.replicate (k + 3) ((1 : ℚ)/10)) ++ [1/10] := by
      show (5 : ℚ) :: List.replicate ((k + 3) + 1) ((1 : ℚ)/10) = _
      rw [List.replicate_succ']
      simp
    rw [h, updates_concat]
    exact mmsCalm_step _ ih

/-- The demo filter stays transient on the sequence 5.0, 0.1, 0.1, ... -/
theorem mms_demo_tail (n : ℕ) :
    (mmsDemo.updates (5 :: List.replicate n (1/10))).state =
      MMSState.transient := by
  rcases n with _ | _ | _ | m
  · decide
  · decide
  · decide
  · exact (mms_demo_calm m).1

/-- C2: with thresholds set the MMS filter state is always transient or
persistent; a fresh filter starts transient; an update flips transient to
persistent exactly when it brings the consecutive-high counter to
persist_ticks, and persistent to transient exactly when it brings the
consecutive-low counter to persist_ticks; with persist_ticks 6, alpha 0.3,
tau_fast 1, tau_persist 2, five straight deviations of 5.0 leave the
state transient, the sixth flips it to persistent, and 5.0 followed by
any number of 0.1 deviations never leaves transient. -/
theorem mms_hysteresis_state_machine :
    (∀ (f : MMSFilter) (d tf tp : ℚ), f.tauFast = some tf →
      f.tauPersist = some tp →
      ((f.update d).1.state = MMSState.transient ∨
        (f.update d).1.state = MMSState.persistent)
      ∧ (f.state = MMSState.transient →
          ((f.update d).1.state = MMSState.persistent ↔
            f.persistTicks ≤ (f.update d).1.consecutiveHigh))
      ∧ (f.state = MMSState.persistent →
          ((f.update d).1.state = MMSState.transient ↔
            f.persistTicks ≤ (f.update d).1.consecutiveLow)))
    ∧ (∀ (a : ℚ) (pt : ℕ) (tf tp : Option ℚ),
        (MMSFilter.init a pt tf tp).state = MMSState.transient)
    ∧ (mmsDemo.updates (List.replicate 5 5)).state = MMSState.transient
    ∧ (mmsDemo.updates (List.replicate 6 5)).state = MMSState.persistent
    ∧ ∀ n : ℕ, (mmsDemo.updates (5 :: List.replicate n (1/10))).state =
        MMSState.transient := by
  refine ⟨?_, fun a pt tf tp => rfl, by decide, by decide, mms_demo_tail⟩
  intro f d tf tp hf hp
  rw [update_eq_of_thresholds f d tf tp hf hp]
  dsimp only
  refine ⟨?_, ?_, ?_⟩
  · cases hst : f.state <;> simp [hst] <;> split_ifs <;> omega
  · intro h
    rw [h]
    dsimp only
    split_ifs <;> simp_all
  · intro h
    rw [h]
    dsimp only
    split_ifs <;> simp_all

/-- Witness for mms_hysteresis_state_machine: the transition rule
instantiated at the demo filter and deviation 5.0. -/
theorem mms_hysteresis_state_machine_witness :
    (mmsDemo.update 5).1.state = MMSState.persistent ↔
      mmsDemo.persistTicks ≤ (mmsDemo.update 5).1.consecutiveHigh :=
  (mms_hysteresis_state_machine.1 mmsDemo 5 1 2 rfl rfl).2.1 rfl

/-- C3 counterexample: after the update sequence 0.0, 1.0 the stored EMA
is 1.0 because the ema == 0.0 sentinel re-triggers the first-call
assignment, while the claimed blending rule requires
alpha * 1.0 + (1 - alpha) * 0.0 = 0.3. -/
theorem ema_first_call_claim_cex :
    (mmsDemo.updates [0, 1]).ema = 1 ∧
    ¬ (mmsDemo.updates [0, 1]).ema =
        mmsDemo.alpha * 1 + (1 - mmsDemo.alpha) * 0 := by
  constructor
  · decide
  · decide

/-- C3 (amended): with thresholds set, an update made while the stored
EMA equals 0.0 (in particular the first update after construction or
reset) sets the EMA to the raw deviation, and an update made while the
stored EMA is nonzero sets it to alpha * deviation + (1 - alpha) *
previous EMA. -/
theorem ema_update_rule (f : MMSFilter) (d tf tp : ℚ)
    (hf : f.tauFast = some tf) (hp : f.tauPersist = some tp) :
    (f.ema = 0 → (f.update d).1.ema = d) ∧
    (f.ema ≠ 0 →
      (f.update d).1.ema = f.alpha * d + (1 - f.alpha) * f.ema) ∧
    (∀ (a : ℚ) (pt : ℕ) (t1 t2 : Option ℚ),
      (MMSFilter.init a pt t1 t2).ema = 0) ∧ f.reset.ema = 0 := by
  rw [update_eq_of_thresholds f d tf tp hf hp]
  exact ⟨fun h => by simp [h], fun h => by simp [h],
    fun a pt t1 t2 => rfl, rfl⟩

/-- Witness for ema_update_rule: first update of the demo filter takes
the raw deviation. -/
theorem ema_update_rule_witness : (mmsDemo.update 5).1.ema = 5 :=
  (ema_update_rule mmsDemo 5 1 2 rfl rfl).1 rfl

/-- C10: updating a filter whose thresholds were never set returns the
deviation as EMA with state transient and no counters, and leaves the
filter (EMA, state, both counters, history) untouched. -/
theorem update_without_thresholds (f : MMSFilter) (d : ℚ)
    (h : f.tauFast = none ∨ f.tauPersist = none) :
    f.update d =
      (f, { ema := d
            state := MMSState.transient
            rawDeviation := d
            consecutiveHigh := none
            consecutiveLow := none }) := by
  cases hf : f.tauFast <;> cases hp : f.tauPersist <;>
    simp_all [MMSFilter.update]

/-- Witness for update_without_thresholds at a concrete untrained
filter. -/
theorem update_without_thresholds_witness :
    mmsUntrained.update 7 =
      (mmsUntrained,
       { ema := 7
         state := MMSState.transient
         rawDeviation := 7
         consecutiveHigh := none
         consecutiveLow := none }) :=
  update_without_thresholds mmsUntrained 7 (Or.inl rfl)

/-- C5: on a trained model (thresholds ordered) classification is
nominal iff the deviation is below tau_fast, warning iff it lies in
[tau_fast, tau_persist), critical iff it is at least tau_persist, and
classifying the same deviation twice gives the same answer. -/
theorem classify_deviation_thresholds (m : IMSModel) (d : ℚ)
    (hm : m.tauFast ≤ m.tauPersist) :
    (classifyDeviation m d = DeviationClass.nominal ↔ d < m.tauFast)
    ∧ (classifyDeviation m d = DeviationClass.warning ↔
        m.tauFast ≤ d ∧ d < m.tauPersist)
    ∧ (classifyDeviation m d = DeviationClass.critical ↔ m.tauPersist ≤ d)
    ∧ classifyDeviation m d = classifyDeviation m d := by
  unfold classifyDeviation
  refine ⟨?_, ?_, ?_, rfl⟩ <;> split_ifs with h1 h2 <;> simp_all
  linarith

/-- Witness for classify_deviation_thresholds: a deviation between the
two thresholds of the demo model is classified warning. -/
theorem classify_deviation_thresholds_witness :
    classifyDeviation c9Model (3/2) = DeviationClass.warning :=
  (classify_deviation_thresholds c9Model (3/2)
    (by norm_num [c9Model])).2.1.mpr (by norm_num [c9Model])

/-- C1: every candidate surviving the slow-loop guardrails keeps the
predicted inlet below the limit and the predicted latency within SLA,
is not a large inlet increase while the deviation is near tau_persist,
and is not high-risk right after a rollback; the surviving list is a
subsequence of the input. -/
theorem apply_guardrails_safe (s : Settings) (st : SystemState)
    (cands : List ActionCandidate) (c : ActionCandidate)
    (hc : c ∈ applyGuardrails s st cands) :
    st.maxInletC + c.predInletChangeC ≤ s.inletMaxC
    ∧ st.avgLatencyMs + c.predLatencyImpactMs ≤ s.slaLatencyMs
    ∧ ¬ (c.predInletChangeC > 1 ∧ st.imsDeviation > st.tauPersist * (7/10))
    ∧ ¬ (c.riskScore > 6/10 ∧ st.recentRollback = true)
    ∧ (applyGuardrails s st cands).Sublist cands := by
  have hsub : (applyGuardrails s st cands).Sublist cands :=
    List.filter_sublist _
  rw [applyGuardrails, List.mem_filter] at hc
  obtain ⟨-, hpass⟩ := hc
  simp only [guardrailsPass, Bool.and_eq_true, Bool.not_eq_true',
    decide_eq_false_iff_not, not_lt, Bool.and_eq_false_iff,
    decide_eq_false_iff_not] at hpass
  obtain ⟨⟨⟨g1, g2⟩, g3⟩, g4⟩ := hpass
  refine ⟨g1, g2, ?_, ?_, hsub⟩
  · rcases g3 with h | h
    · exact fun hx => absurd hx.1 (by simpa using h)
    · exact fun hx => absurd hx.2 (by simpa using h)
  · rcases g4 with h | h
    · exact fun hx => absurd hx.1 (by simpa using h)
    · exact fun hx => absurd hx.2 (by simp [h])

/-- Witness for apply_guardrails_safe at the demo state and a surviving
batch-window candidate. -/
theorem apply_guardrails_safe_witness :
    demoState.maxInletC + demoCandidate.predInletChangeC ≤
      defaultSettings.inletMaxC :=
  (apply_guardrails_safe defaultSettings demoState [demoCandidate]
    demoCandidate (by decide)).1

/-- C6: ranking returns a permutation of the candidates, sorted by
descending composite score; it is deterministic; the default weights
score a candidate as savings - 0.8 * risk - 0.3 * abs latency / 100;
candidates with equal composite score keep their relative order. -/
theorem rank_candidates_spec (w : RankWeights)
    (l : List ActionCandidate) :
    (rankCandidates w l).Perm l
    ∧ (rankCandidates w l).Pairwise
        (fun a b => candidateScore w b ≤ candidateScore w a)
    ∧ rankCandidates w l = rankCandidates w l
    ∧ (∀ c, candidateScore defaultRankWeights c =
        c.predSavingPct - (4/5) * c.riskScore
          - (3/10) * |c.predLatencyImpactMs| / 100)
    ∧ ∀ a b, [a, b].Sublist l →
        candidateScore w a = candidateScore w b →
        [a, b].Sublist (rankCandidates w l) := by
  have htrans : ∀ a b c : ActionCandidate,
      (decide (candidateScore w b ≤ candidateScore w a)) = true →
      (decide (candidateScore w c ≤ candidateScore w b)) = true →
      (decide (candidateScore w c ≤ candidateScore w a)) = true := by
    intro a b c h1 h2
    simp only [decide_eq_true_eq] at *
    exact le_trans h2 h1
  have htotal : ∀ a b : ActionCandidate,
      ((decide (candidateScore w b ≤ candidateScore w a)) ||
       (decide (candidateScore w a ≤ candidateScore w b))) = true := by
    intro a b
    simp only [Bool.or_eq_true, decide_eq_true_eq]
    exact le_total _ _
  refine ⟨?_, ?_, rfl, ?_, ?_⟩
  · rw [rankCandidates]
    split_ifs with he
    · rw [List.isEmpty_iff.mp he]
    · exact List.mergeSort_perm l _
  · rw [rankCandidates]
    split_ifs with he
    · simp
    · have := List.sorted_mergeSort htrans htotal l
      exact this.imp (fun h => by simpa using h)
  · intro c
    unfold candidateScore defaultRankWeights
    ring
  · intro a b hab heq
    rw [rankCandidates]
    split_ifs with he
    · rw [List.isEmpty_iff.mp he] at hab
      exact absurd hab (by simp)
    · refine List.sublist_mergeSort htrans htotal ?_ hab
      exact List.pairwise_pair.mpr (by simp [heq])

/-- Witness for rank_candidates_spec: two equal-score candidates keep
their original order through ranking. -/
theorem rank_candidates_spec_witness :
    [demoCandidate, demoCandidateB].Sublist
      (rankCandidates defaultRankWeights
        [demoCandidate, demoCandidateB]) :=
  (rank_candidates_spec defaultRankWeights
    [demoCandidate, demoCandidateB]).2.2.2.2 demoCandidate demoCandidateB
    (List.Sublist.refl _) (by decide)

/-- The clamped element accessor is monotone on a sorted array. -/
theorem elAt_mono {s : List ℚ} (hs : List.Sorted (· ≤ ·) s)
    {j k : ℕ} (hjk : j ≤ k) : elAt s j ≤ elAt s k := by
  rcases eq_or_ne s [] with hne | hne
  · simp [elAt, hne]
  · have hn : 0 < s.length := List.length_pos.mpr hne
    have hlast : s.length - 1 < s.length := Nat.sub_lt hn one_pos
    have ha : min j (s.length - 1) < s.length :=
      lt_of_le_of_lt (min_le_right _ _) hlast
    have hb : min k (s.length - 1) < s.length :=
      lt_of_le_of_lt (min_le_right _ _) hlast
    rw [elAt, elAt, List.getD_eq_getElem _ _ ha,
      List.getD_eq_getElem _ _ hb]
    have hab : min j (s.length - 1) ≤ min k (s.length - 1) :=
      min_le_min hjk (le_refl _)
    have hrel := hs.rel_get_of_le (a := ⟨_, ha⟩) (b := ⟨_, hb⟩)
      (Fin.mk_le_mk.mpr hab)
    simpa using hrel

/-- Clamped elements of a list of nonnegative values are nonnegative. -/
theorem elAt_nonneg {s : List ℚ} (hnn : ∀ x ∈ s, 0 ≤ x) (j : ℕ) :
    0 ≤ elAt s j := by
  rcases eq_or_ne s [] with hne | hne
  · simp [elAt, hne]
  · have hn : 0 < s.length := List.length_pos.mpr hne
    have hlast : s.length - 1 < s.length := Nat.sub_lt hn one_pos
    have ha : min j (s.length - 1) < s.length :=
      lt_of_le_of_lt (min_le_right _ _) hlast
    rw [elAt, List.getD_eq_getElem _ _ ha]
    exact hnn _ (List.getElem_mem ha)

/-- The floor of a nonnegative rational, through toNat, is below it. -/
theorem floor_toNat_cast_le {h : ℚ} (h0 : 0 ≤ h) :
    (((⌊h⌋).toNat : ℕ) : ℚ) ≤ h := by
  have hle := Int.floor_le h
  rw [← Int.toNat_of_nonneg (Int.floor_nonneg.mpr h0)] at hle
  exact_mod_cast hle

/-- A nonnegative rational is below its floor (through toNat) plus one. -/
theorem lt_floor_toNat_add_one {h : ℚ} (h0 : 0 ≤ h) :
    h < (((⌊h⌋).toNat : ℕ) : ℚ) + 1 := by
  have hlt := Int.lt_floor_add_one h
  rw [← Int.toNat_of_nonneg (Int.floor_nonneg.mpr h0)] at hlt
  exact_mod_cast hlt

/-- Linear interpolation into a sorted array is monotone in the
(nonnegative) fractional index. -/
theorem interpAt_mono {s : List ℚ} (hs : List.Sorted (· ≤ ·) s)
    {h1 h2 : ℚ} (h0 : 0 ≤ h1) (h12 : h1 ≤ h2) :
    interpAt s h1 ≤ interpAt s h2 := by
  have h0' : 0 ≤ h2 := le_trans h0 h12
  have hc1 := floor_toNat_cast_le h0
  have hc1' := lt_floor_toNat_add_one h0
  have hc2 := floor_toNat_cast_le h0'
  have hi12 : (⌊h1⌋).toNat ≤ (⌊h2⌋).toNat :=
    Int.toNat_le_toNat (Int.floor_mono h12)
  by_cases hii : (⌊h1⌋).toNat = (⌊h2⌋).toNat
  · simp only [interpAt, hii]
    have hd : elAt s ((⌊h2⌋).toNat) ≤ elAt s ((⌊h2⌋).toNat + 1) :=
      elAt_mono hs (Nat.le_succ _)
    nlinarith [mul_nonneg (sub_nonneg.mpr h12) (sub_nonneg.mpr hd)]
  · have hlt : (⌊h1⌋).toNat < (⌊h2⌋).toNat := lt_of_le_of_ne hi12 hii
    have e1 : interpAt s h1 ≤ elAt s ((⌊h1⌋).toNat + 1) := by
      simp only [interpAt]
      have hd : elAt s ((⌊h1⌋).toNat) ≤ elAt s ((⌊h1⌋).toNat + 1) :=
        elAt_mono hs (Nat.le_succ _)
      have hf1 : h1 - (((⌊h1⌋).toNat : ℕ) : ℚ) ≤ 1 := by linarith
      nlinarith [mul_nonneg (by linarith :
        (0:ℚ) ≤ 1 - (h1 - (((⌊h1⌋).toNat : ℕ) : ℚ)))
        (sub_nonneg.mpr hd)]
    have e2 : elAt s ((⌊h1⌋).toNat + 1) ≤ elAt s ((⌊h2⌋).toNat) :=
      elAt_mono hs hlt
    have e3 : elAt s ((⌊h2⌋).toNat) ≤ interpAt s h2 := by
      simp only [interpAt]
      have hd : elAt s ((⌊h2⌋).toNat) ≤ elAt s ((⌊h2⌋).toNat + 1) :=
        elAt_mono hs (Nat.le_succ _)
      have hf2 : 0 ≤ h2 - (((⌊h2⌋).toNat : ℕ) : ℚ) := by linarith
      nlinarith [mul_nonneg hf2 (sub_nonneg.mpr hd)]
    linarith

/-- Linear interpolation into a sorted array of nonnegative values at a
nonnegative index is nonnegative. -/
theorem interpAt_nonneg {s : List ℚ} (hs : List.Sorted (· ≤ ·) s)
    (hnn : ∀ x ∈ s, 0 ≤ x) {h : ℚ} (h0 : 0 ≤ h) : 0 ≤ interpAt s h := by
  simp only [interpAt]
  have hd : elAt s ((⌊h⌋).toNat) ≤ elAt s ((⌊h⌋).toNat + 1) :=
    elAt_mono hs (Nat.le_succ _)
  have he : 0 ≤ elAt s ((⌊h⌋).toNat) := elAt_nonneg hnn _
  have hf : 0 ≤ h - (((⌊h⌋).toNat : ℕ) : ℚ) := by
    have := floor_toNat_cast_le h0
    linarith
  nlinarith [mul_nonneg hf (sub_nonneg.mpr hd)]

/-- The percentile of nonnegative deviations is nonnegative. -/
theorem percentile_nonneg {l : List ℚ} {q : ℚ}
    (hnn : ∀ x ∈ l, 0 ≤ x) (hq : 0 ≤ q) (hne : l ≠ []) :
    0 ≤ percentile l q := by
  have hs := List.sorted_insertionSort (fun a b : ℚ => a ≤ b) l
  have hperm := List.perm_insertionSort (fun a b : ℚ => a ≤ b) l
  have hnn' : ∀ x ∈ List.insertionSort (fun a b : ℚ => a ≤ b) l, 0 ≤ x :=
    fun x hx => hnn x (hperm.mem_iff.mp hx)
  have hl : 0 < l.length := List.length_pos.mpr hne
  have hone : (1:ℚ) ≤ (l.length : ℚ) := by exact_mod_cast hl
  have hh : 0 ≤ (((List.insertionSort (fun a b : ℚ => a ≤ b) l).length :
      ℚ) - 1) * q / 100 := by
    apply div_nonneg _ (by norm_num)
    apply mul_nonneg _ hq
    rw [hperm.length_eq]
    linarith
  exact interpAt_nonneg hs hnn' hh

/-- The percentile function is monotone in the requested percentile. -/
theorem percentile_mono {l : List ℚ} {q1 q2 : ℚ} (hq1 : 0 ≤ q1)
    (h12 : q1 ≤ q2) (hne : l ≠ []) :
    percentile l q1 ≤ percentile l q2 := by
  have hs := List.sorted_insertionSort (fun a b : ℚ => a ≤ b) l
  have hperm := List.perm_insertionSort (fun a b : ℚ => a ≤ b) l
  have hl : 0 < l.length := List.length_pos.mpr hne
  have hone : (1:ℚ) ≤ (l.length : ℚ) := by exact_mod_cast hl
  have hc : 0 ≤ ((List.insertionSort (fun a b : ℚ => a ≤ b) l).length :
      ℚ) - 1 := by
    rw [hperm.length_eq]
    linarith
  apply interpAt_mono hs
  · exact div_nonneg (mul_nonneg hc hq1) (by norm_num)
  · exact (div_le_div_iff_of_pos_right (by norm_num)).mpr
      (mul_le_mul_of_nonneg_left h12 hc)

/-- Squared distances are nonnegative. -/
theorem distSq_nonneg (x c : List ℚ) : 0 ≤ distSq x c := by
  rw [distSq]
  apply List.sum_nonneg
  intro y hy
  rcases List.mem_map.mp hy with ⟨p, -, rfl⟩
  exact sq_nonneg _

/-- Folding min over nonnegative values stays nonnegative. -/
theorem foldl_min_nonneg : ∀ (ds : List ℚ) (d : ℚ), 0 ≤ d →
    (∀ y ∈ ds, 0 ≤ y) → 0 ≤ ds.foldl min d := by
  intro ds
  induction ds with
  | nil =>
    intro d hd _
    simpa using hd
  | cons y ys ih =>
    intro d hd hys
    simp only [List.foldl_cons]
    exact ih (min d y) (le_min hd (hys y (by simp)))
      (fun z hz => hys z (by simp [hz]))

/-- Deviation scores (minimum squared distance to a center) are
nonnegative. -/
theorem minDistSq_nonneg (centers : List (List ℚ)) (x : List ℚ) :
    0 ≤ minDistSq centers x := by
  have hall : ∀ y ∈ centers.map (fun c => distSq x c), 0 ≤ y := by
    intro y hy
    rcases List.mem_map.mp hy with ⟨c, -, rfl⟩
    exact distSq_nonneg x c
  unfold minDistSq
  split
  · exact le_refl 0
  next d ds heq =>
    exact foldl_min_nonneg ds d (hall d (by rw [heq]; simp))
      (fun z hz => hall z (by rw [heq]; simp [hz]))

/-- C4 counterexample: with the percentile pair configured as (98, 95),
train succeeds on 101 samples without raising any invalid-threshold
error and returns tau_persist = 9025 < 9604 = tau_fast; the source
contains no such validation (core/errors.py has no InvalidThresholdError
class). -/
theorem train_thresholds_claim_cex :
    trainThresholds swappedSettings (computeDeviations c4Centers c4Rows) =
      Except.ok { tauFast := 9604, tauPersist := 9025 } ∧
    ¬ ((9604 : ℚ) ≤ 9025) := by
  constructor
  · rfl
  · norm_num

/-- C4 (amended): train sets the two thresholds to the configured
percentiles of the training deviations with no further validation; for
every accepted training set, whenever the configured fast percentile is
at most the persist percentile (as in the default 95/98 configuration),
the returned model satisfies tau_persist >= tau_fast >= 0. -/
theorem train_thresholds_invariant (s : Settings)
    (centers : List (List ℚ)) (rows : List (List ℚ)) (r : TrainResult)
    (hq0 : 0 ≤ s.imsTauFastPercentile)
    (hqle : s.imsTauFastPercentile ≤ s.imsTauPersistPercentile)
    (h : trainThresholds s (computeDeviations centers rows) =
      Except.ok r) :
    0 ≤ r.tauFast ∧ r.tauFast ≤ r.tauPersist := by
  unfold trainThresholds at h
  split at h
  · exact absurd h (by simp)
  next hlen =>
    simp only [Except.ok.injEq] at h
    subst h
    have hne : computeDeviations centers rows ≠ [] := by
      intro hnil
      rw [hnil] at hlen
      simp at hlen
    have hnn : ∀ x ∈ computeDeviations centers rows, 0 ≤ x := by
      intro x hx
      rcases List.mem_map.mp hx with ⟨row, -, rfl⟩
      exact minDistSq_nonneg centers row
    exact ⟨percentile_nonneg hnn hq0 hne, percentile_mono hq0 hqle hne⟩

/-- Witness for train_thresholds_invariant on the default configuration
and the concrete 101-sample training set. -/
theorem train_thresholds_invariant_witness :
    0 ≤ (9025 : ℚ) ∧ (9025 : ℚ) ≤ 9604 :=
  train_thresholds_invariant defaultSettings c4Centers c4Rows
    { tauFast := 9025, tauPersist := 9604 }
    (by norm_num [defaultSettings]) (by norm_num [defaultSettings])
    (by rfl)

/-- Case analysis form of slowOptimize: the early exits, then selection,
then the rate limit. -/
theorem slowOptimize_eq (s : Settings) (now : ℚ) (st : SystemState)
    (m : String → Option ℚ) :
    slowOptimize s now st m =
      if s.globalKillSwitch = true ∨ st.mmsState = MMSState.persistent ∨
          s.slaLatencyMs * (95/100) < st.avgLatencyMs then (none, m)
      else
        match rankCandidates defaultRankWeights
            (applyGuardrails s st (generateCandidates s st)) with
        | [] => (none, m)
        | best :: _ =>
          match m (keyOf best.action best.target) with
          | some t =>
            if now - t < s.writeRateLimitS then (none, m)
            else (some (mkSlowProposal best now),
                  updateMap m (keyOf best.action best.target) now)
          | none => (some (mkSlowProposal best now),
                     updateMap m (keyOf best.action best.target) now) := by
  unfold slowOptimize
  by_cases h1 : s.globalKillSwitch
  · simp [h1]
  · by_cases h2 : st.mmsState = MMSState.persistent
    · simp [h1, h2]
    · by_cases h3 : s.slaLatencyMs * (95/100) < st.avgLatencyMs
      · simp [h1, h2, h3]
      · simp only [h1, h2, h3, Bool.false_eq_true, if_false, gt_iff_lt,
          or_self, if_neg, or_false, false_or, if_true]
        cases he : (generateCandidates s st).isEmpty
        · simp only [Bool.false_eq_true, if_false]
          by_cases hs : (applyGuardrails s st
              (generateCandidates s st)).isEmpty
          · have hnil : applyGuardrails s st (generateCandidates s st)
                = [] := List.isEmpty_iff.mp hs
            rw [if_pos hs, hnil]
            rfl
          · rw [if_neg hs]
        · have hnil : generateCandidates s st = [] :=
            List.isEmpty_iff.mp he
          have hg : applyGuardrails s st (generateCandidates s st) = [] := by
            rw [hnil]; rfl
          simp [hg, rankCandidates]

/-- Case analysis form of fastEvaluate. -/
theorem fastEvaluate_eq (s : Settings) (now : ℚ) (st : SystemState)
    (m : String → Option ℚ) :
    fastEvaluate s now st m =
      if s.globalKillSwitch = true ∨ fastNeedsAction s st = false
      then (none, m)
      else
        match rankCandidates defaultRankWeights (fastSafeSelection s st)
          with
        | [] => (none, m)
        | best :: _ =>
          match m (keyOf best.action best.target) with
          | some t =>
            if now - t < 60 then (none, m)
            else (some (mkFastProposal best now),
                  updateMap m (keyOf best.action best.target) now)
          | none => (some (mkFastProposal best now),
                     updateMap m (keyOf best.action best.target) now) := by
  unfold fastEvaluate
  by_cases h1 : s.globalKillSwitch
  · simp [h1]
  · by_cases h2 : fastNeedsAction s st = false
    · simp [h1, h2]
    · rw [if_neg h1,
        if_neg (by simp [h2] : ¬ (!(fastNeedsAction s st)) = true),
        if_neg (by simp [h1, h2] : ¬ (s.globalKillSwitch = true ∨
          fastNeedsAction s st = false))]
      cases he : (generateCandidates s st).isEmpty
      · simp only [he, Bool.false_eq_true, if_false]
      · have hnil : generateCandidates s st = [] :=
          List.isEmpty_iff.mp he
        have hsel : fastSafeSelection s st = [] := by
          unfold fastSafeSelection
          rw [hnil]
          rfl
        rw [if_pos he, hsel]
        rfl

/-- When the slow loop returns a proposal with key k, that key is the
best-candidate key of the evaluated state and the returned map records
the firing time under k. -/
theorem slowOptimize_fired (s : Settings) (now : ℚ) (st : SystemState)
    (m : String → Option ℚ) (k : String)
    (h : (slowOptimize s now st m).1.map proposalKey = some k) :
    slowBestKey s st = some k ∧
      (slowOptimize s now st m).2 k = some now := by
  rw [slowOptimize_eq] at h ⊢
  split at h
  next => simp at h
  next h1 =>
    rw [if_neg h1]
    split at h
    next heq => simp at h
    next best tail heq =>
      split at h
      next t heq2 =>
        split at h
        next => simp at h
        next ht =>
          simp only [Option.map_some, Option.some.injEq] at h
          have hk : keyOf best.action best.target = k := by
            simpa [mkSlowProposal, proposalKey] using h
          subst hk
          constructor
          · simp [slowBestKey, heq]
          · simp [heq, heq2, ht, updateMap]
      next heq2 =>
        simp only [Option.map_some, Option.some.injEq] at h
        have hk : keyOf best.action best.target = k := by
          simpa [mkSlowProposal, proposalKey] using h
        subst hk
        constructor
        · simp [slowBestKey, heq]
        · simp [heq, heq2, updateMap]

/-- When the fast loop returns a proposal with key k, that key is the
best-candidate key of the evaluated state and the returned map records
the firing time under k. -/
theorem fastEvaluate_fired (s : Settings) (now : ℚ) (st : SystemState)
    (m : String → Option ℚ) (k : String)
    (h : (fastEvaluate s now st m).1.map proposalKey = some k) :
    fastBestKey s st = some k ∧
      (fastEvaluate s now st m).2 k = some now := by
  rw [fastEvaluate_eq] at h ⊢
  split at h
  next => simp at h
  next h1 =>
    rw [if_neg h1]
    split at h
    next heq => simp at h
    next best tail heq =>
      split at h
      next t heq2 =>
        split at h
        next => simp at h
        next ht =>
          simp only [Option.map_some, Option.some.injEq] at h
          have hk : keyOf best.action best.target = k := by
            simpa [mkFastProposal, proposalKey] using h
          subst hk
          constructor
          · simp [fastBestKey, heq]
          · simp [heq, heq2, ht, updateMap]
      next heq2 =>
        simp only [Option.map_some, Option.some.injEq] at h
        have hk : keyOf best.action best.target = k := by
          simpa [mkFastProposal, proposalKey] using h
        subst hk
        constructor
        · simp [fastBestKey, heq]
        · simp [heq, heq2, updateMap]

/-- C7: the slow optimizer returns no proposal whenever the kill switch
is engaged, the MMS state is persistent, or the average latency exceeds
95 percent of the SLA latency, regardless of candidates or ranking. -/
theorem slow_optimize_skips_unstable (s : Settings) (now : ℚ)
    (st : SystemState) (m : String → Option ℚ)
    (h : s.globalKillSwitch = true ∨ st.mmsState = MMSState.persistent ∨
      st.avgLatencyMs > s.slaLatencyMs * (95/100)) :
    (slowOptimize s now st m).1 = none := by
  rw [slowOptimize_eq, if_pos h]

/-- Witness for slow_optimize_skips_unstable on a persistent state. -/
theorem slow_optimize_skips_unstable_witness :
    (slowOptimize defaultSettings 0
      { demoState with mmsState := MMSState.persistent }
      (fun _ => none)).1 = none :=
  slow_optimize_skips_unstable defaultSettings 0
    { demoState with mmsState := MMSState.persistent } (fun _ => none)
    (Or.inr (Or.inl rfl))

/-- C8: for each loop controller separately (each threading its own
last-fired map), if one evaluation emits a proposal for key k and a
second evaluation whose best candidate carries the same key runs within
the rate-limit window (the configured write rate limit for the slow
loop, 60 seconds for the fast loop), the second returns no proposal. -/
theorem rate_limit_suppression :
    (∀ (s : Settings) (now1 now2 : ℚ) (st1 st2 : SystemState)
       (m : String → Option ℚ) (k : String),
       (slowOptimize s now1 st1 m).1.map proposalKey = some k →
       slowBestKey s st2 = some k →
       now2 - now1 < s.writeRateLimitS →
       (slowOptimize s now2 st2 (slowOptimize s now1 st1 m).2).1 = none)
    ∧ (∀ (s : Settings) (now1 now2 : ℚ) (st1 st2 : SystemState)
       (m : String → Option ℚ) (k : String),
       (fastEvaluate s now1 st1 m).1.map proposalKey = some k →
       fastBestKey s st2 = some k →
       now2 - now1 < 60 →
       (fastEvaluate s now2 st2 (fastEvaluate s now1 st1 m).2).1 = none) := by
  constructor
  · intro s now1 now2 st1 st2 m k hfired hbest hlt
    obtain ⟨-, hmap⟩ := slowOptimize_fired s now1 st1 m k hfired
    rw [slowOptimize_eq]
    split
    · rfl
    · rcases hR2 : rankCandidates defaultRankWeights
          (applyGuardrails s st2 (generateCandidates s st2))
        with _ | ⟨b2, t2⟩
      · rfl
      · have hk : keyOf b2.action b2.target = k := by
          simpa [slowBestKey, hR2] using hbest
        have hmap2 : (slowOptimize s now1 st1 m).2
            (keyOf b2.action b2.target) = some now1 := by
          rw [hk]; exact hmap
        simp [hmap2, hlt]
  · intro s now1 now2 st1 st2 m k hfired hbest hlt
    obtain ⟨-, hmap⟩ := fastEvaluate_fired s now1 st1 m k hfired
    rw [fastEvaluate_eq]
    split
    · rfl
    · rcases hR2 : rankCandidates defaultRankWeights
          (fastSafeSelection s st2) with _ | ⟨b2, t2⟩
      · rfl
      · have hk : keyOf b2.action b2.target = k := by
          simpa [fastBestKey, hR2] using hbest
        have hmap2 : (fastEvaluate s now1 st1 m).2
            (keyOf b2.action b2.target) = some now1 := by
          rw [hk]; exact hmap
        simp [hmap2, hlt]

/-- A one-sample frame has a column exactly when the sample has the
key. -/
theorem colPresent_singleton (t : Sample) (sel : Sample → Option ℚ) :
    colPresent [t] sel = (sel t).isSome := by
  simp [colPresent]

/-- Under uniform key presence, column presence in the frame agrees with
key presence in any single sample. -/
theorem colPresent_eq_of_uniform (sel : Sample → Option ℚ)
    {samples : List Sample} {t : Sample} (ht : t ∈ samples)
    (huni : ∀ u ∈ samples, (sel u).isSome = (sel t).isSome) :
    colPresent samples sel = (sel t).isSome := by
  unfold colPresent
  cases hst : (sel t).isSome
  · rw [List.any_eq_false]
    intro u hu
    rw [huni u hu, hst]
    simp
  · rw [List.any_eq_true]
    exact ⟨t, ht, by rw [huni t ht, hst]⟩

/-- When the power column is present or the energy column absent, the
cross-row diff derivation is skipped and prepare_features acts row by
row. -/
theorem prepareFeatures_eq_of_noDiff (samples : List Sample)
    (hnd : colPresent samples Sample.gpuPowerKw = true ∨
      colPresent samples Sample.gpuEnergyJ = false) :
    prepareFeatures samples =
      if featuresGate samples then
        some (samples.map (fun s => sampleRow
          (if colPresent samples Sample.deltaT then s
           else { s with deltaT := sub2 s.outletC s.inletC })))
      else none := by
  cases hdt : colPresent samples Sample.deltaT <;>
    cases hgpow : colPresent samples Sample.gpuPowerKw <;>
      cases hge : colPresent samples Sample.gpuEnergyJ <;>
        simp_all [prepareFeatures, List.map_map, Function.comp_def]

/-- mapM over a function that succeeds pointwise is the map of the
results. -/
theorem mapM_eq_map_of_some {α β : Type} (f : α → Option β) (g : α → β) :
    ∀ l : List α, (∀ a ∈ l, f a = some (g a)) →
      l.mapM f = some (l.map g) := by
  intro l
  induction l with
  | nil =>
    intro _
    rfl
  | cons a t ih =>
    intro h
    rw [List.mapM_cons, h a (List.mem_cons_self a t),
      ih (fun b hb => h b (List.mem_cons_of_mem a hb))]
    rfl

/-- C9 counterexample: a batch of two fully keyed samples that lack
gpu_power_kw but carry cumulative gpu_energy_j scores differently in
score_batch than sample-by-sample in score_sample: the batch derives
row 1 power from the energy difference (1), while the single-row frame
always derives 0. -/
theorem score_batch_claim_cex :
    scoreBatch c9Model [c9SampleA, c9SampleB] ≠
      [c9SampleA, c9SampleB].mapM (scoreSample c9Model) := by
  decide

/-- C9 (amended): when every sample exposes the same keys and no
cross-row energy differencing happens (gpu_power_kw present in all
samples, or gpu_energy_j absent from all), score_batch returns exactly
one score per sample, in input order, each equal to the score_sample
result for that sample (and both sides fail together when a feature
column is missing). -/
theorem score_batch_pointwise (m : IMSModel) (samples : List Sample)
    (huni : ∀ u ∈ samples, ∀ v ∈ samples, samePresence u v)
    (hgp : (∀ u ∈ samples, u.gpuPowerKw.isSome = true) ∨
      (∀ u ∈ samples, u.gpuEnergyJ = none)) :
    scoreBatch m samples = samples.mapM (scoreSample m) := by
  cases samples with
  | nil => rfl
  | cons s0 rest =>
    have h0 : s0 ∈ s0 :: rest := List.mem_cons_self s0 rest
    have hpres : ∀ sel : Sample → Option ℚ,
        (∀ u v : Sample, samePresence u v →
          (sel u).isSome = (sel v).isSome) →
        colPresent (s0 :: rest) sel = (sel s0).isSome := by
      intro sel hsel
      exact colPresent_eq_of_uniform sel h0
        (fun u hu => hsel u s0 (huni u hu s0 h0))
    have hIn := hpres Sample.inletC (fun u v h => h.1)
    have hOut := hpres Sample.outletC (fun u v h => h.2.1)
    have hDt := hpres Sample.deltaT (fun u v h => h.2.2.1)
    have hPdu := hpres Sample.pduKw (fun u v h => h.2.2.2.1)
    have hPow := hpres Sample.gpuPowerKw (fun u v h => h.2.2.2.2.1)
    have hEn := hpres Sample.gpuEnergyJ (fun u v h => h.2.2.2.2.2.1)
    have hTok := hpres Sample.tokensPs (fun u v h => h.2.2.2.2.2.2.1)
    have hLat := hpres Sample.latencyP95Ms
      (fun u v h => h.2.2.2.2.2.2.2.1)
    have hQue := hpres Sample.queueDepth
      (fun u v h => h.2.2.2.2.2.2.2.2.1)
    have hFan := hpres Sample.fanRpmPct
      (fun u v h => h.2.2.2.2.2.2.2.2.2.1)
    have hPum := hpres Sample.pumpRpmPct
      (fun u v h => h.2.2.2.2.2.2.2.2.2.2)
    have hndB : colPresent (s0 :: rest) Sample.gpuPowerKw = true ∨
        colPresent (s0 :: rest) Sample.gpuEnergyJ = false := by
      rcases hgp with hA | hB
      · exact Or.inl (by rw [hPow]; exact hA s0 h0)
      · exact Or.inr (by rw [hEn, hB s0 h0]; rfl)
    have hndT : ∀ t ∈ s0 :: rest,
        colPresent [t] Sample.gpuPowerKw = true ∨
          colPresent [t] Sample.gpuEnergyJ = false := by
      intro t ht
      rcases hgp with hA | hB
      · exact Or.inl (by rw [colPresent_singleton]; exact hA t ht)
      · exact Or.inr (by rw [colPresent_singleton, hB t ht]; rfl)
    have hgate : ∀ t ∈ s0 :: rest,
        featuresGate [t] = featuresGate (s0 :: rest) := by
      intro t ht
      obtain ⟨e1, e2, e3, e4, e5, e6, e7, e8, e9, e10, e11⟩ :=
        huni t ht s0 h0
      unfold featuresGate
      simp [colPresent_singleton, hIn, hOut, hDt, hPdu, hPow, hEn, hTok,
        hLat, hQue, hFan, hPum, e1, e2, e3, e4, e5, e6, e7, e8, e9, e10,
        e11]
    have hdt_t : ∀ t ∈ s0 :: rest, colPresent [t] Sample.deltaT =
        colPresent (s0 :: rest) Sample.deltaT := by
      intro t ht
      obtain ⟨-, -, e3, -, -, -, -, -, -, -, -⟩ := huni t ht s0 h0
      rw [colPresent_singleton, hDt, e3]
    have hsingle : ∀ t ∈ s0 :: rest, scoreSample m t =
        if featuresGate (s0 :: rest) then
          some (devOfRow m (sampleRow
            (if colPresent (s0 :: rest) Sample.deltaT then t
             else { t with deltaT := sub2 t.outletC t.inletC })))
        else none := by
      intro t ht
      unfold scoreSample
      rw [prepareFeatures_eq_of_noDiff [t] (hndT t ht), hgate t ht,
        hdt_t t ht]
      cases hG : featuresGate (s0 :: rest)
      · simp
      · simp
    simp only [scoreBatch, List.isEmpty_cons, Bool.false_eq_true,
      if_false]
    rw [prepareFeatures_eq_of_noDiff _ hndB]
    cases hG : featuresGate (s0 :: rest)
    · have h1 := hsingle s0 h0
      rw [hG] at h1
      simp only [Bool.false_eq_true, if_false] at h1
      rw [List.mapM_cons, h1]
      simp
    · have hmapm : (s0 :: rest).mapM (scoreSample m) =
          some ((s0 :: rest).map (fun t => devOfRow m (sampleRow
            (if colPresent (s0 :: rest) Sample.deltaT then t
             else { t with deltaT := sub2 t.outletC t.inletC })))) := by
        apply mapM_eq_map_of_some
        intro t ht
        have h1 := hsingle t ht
        rw [hG] at h1
        simpa using h1
      rw [hmapm]
      simp [List.map_map, Function.comp]

/-- Witness for score_batch_pointwise on two fully keyed samples. -/
theorem score_batch_pointwise_witness :
    scoreBatch c9Model [c9FullA, c9FullB] =
      [c9FullA, c9FullB].mapM (scoreSample c9Model) :=
  score_batch_pointwise c9Model [c9FullA, c9FullB]
    (by
      intro u hu v hv
      fin_cases hu <;> fin_cases hv <;>
        exact ⟨rfl, rfl, rfl, rfl, rfl, rfl, rfl, rfl, rfl, rfl, rfl⟩)
    (Or.inl (by decide))

/-- Witness for rate_limit_suppression: both loops suppress a repeat of
the batch-window proposal one second after it fired. -/
theorem rate_limit_suppression_witness :
    (slowOptimize defaultSettings 1 demoState
      (slowOptimize defaultSettings 0 demoState (fun _ => none)).2).1 =
        none
    ∧ (fastEvaluate defaultSettings 1 fastDemoState
      (fastEvaluate defaultSettings 0 fastDemoState (fun _ => none)).2).1 =
        none :=
  ⟨rate_limit_suppression.1 defaultSettings 0 1 demoState demoState
    (fun _ => none) "increase_batch_window:system" (by decide) (by decide)
    (by norm_num [defaultSettings]),
   rate_limit_suppression.2 defaultSettings 0 1 fastDemoState fastDemoState
    (fun _ => none) "increase_batch_window:system" (by decide) (by decide)
    (by norm_num)⟩

end Skadi
